import Mathlib

/-!
Verification of the Peloton libevent network front-end
(`src/include/wire/libevent_server.h`) via a shallow embedding.

The header provides inline code for `Buffer`, the `LibeventThread`
constructor, and `LibeventSocket::Init`, the `LibeventSocket`
constructor and `LibeventSocket::Reset`.  Out-of-line members
(`RefillReadBuffer`, `BufferWriteBytes`, `FlushWriteBuffer`,
`DispatchConnection`) are only declared in the header; their
behaviour is modelled from the specification where needed, and each
such definition is marked `Modelled from the spec:`.

Machine integers: `size_t` fields become `Nat` (they are unsigned and
never overflow under the stated preconditions); `int`/`short`/fd
values become `Int`.  Bytes are `Nat` values.
-/

namespace Peloton

/-- `#define SOCKET_BUFFER_SIZE 8192` from the header. -/
def SOCKET_BUFFER_SIZE : Nat := 8192

/-- `#define QUEUE_SIZE 100` from the header. -/
def QUEUE_SIZE : Nat := 100

/-- `O_NONBLOCK` file-status flag bit (Linux: octal 04000). -/
def O_NONBLOCK : Nat := 2048

/-- `struct Buffer`: cursor `buf_ptr`, filled length `buf_size`, and the
fixed-capacity byte array `buf` (a `SockBuf`), modelled as the map from
index to byte content. -/
structure Buffer where
  buf_ptr : Nat
  buf_size : Nat
  buf : Nat → Nat

/-- `Buffer()` constructor: `buf_ptr(0), buf_size(0)`; the byte array is
default-constructed, so its contents `c` are arbitrary. -/
def Buffer.init (c : Nat → Nat) : Buffer :=
  ⟨0, 0, c⟩

/-- `Buffer::Reset()`: `buf_ptr = 0; buf_size = 0;` — the byte array is
not touched. -/
def Buffer.Reset (b : Buffer) : Buffer :=
  { b with buf_ptr := 0, buf_size := 0 }

/-- `Buffer::GetMaxSize()` returns `SOCKET_BUFFER_SIZE`. -/
def Buffer.GetMaxSize (_ : Buffer) : Nat := SOCKET_BUFFER_SIZE

/-- Modelled from the spec: the buffer operation *consume(n)* (used by the
read path, whose out-of-line implementation is not in the header):
"advance cursor by `n`; requires `n ≤ remaining`" where
*remaining* = `filled − cursor`.  Fails when the precondition does
not hold. -/
def Buffer.consume (b : Buffer) (n : Nat) : Option Buffer :=
  if b.buf_ptr + n ≤ b.buf_size then
    some { b with buf_ptr := b.buf_ptr + n }
  else
    none

/-- Modelled from the spec: the buffer operation *append(src, n)* (used by
the write path, whose out-of-line implementation is not in the header):
"copy `n` bytes into `[filled, filled+n)`; requires
`filled + n ≤ capacity`; increases filled."  Fails when the
precondition does not hold. -/
def Buffer.append (b : Buffer) (src : List Nat) : Option Buffer :=
  if b.buf_size + src.length ≤ SOCKET_BUFFER_SIZE then
    some { b with
            buf_size := b.buf_size + src.length,
            buf := fun i =>
              if b.buf_size ≤ i ∧ i < b.buf_size + src.length then
                src.getD (i - b.buf_size) 0
              else
                b.buf i }
  else
    none

/-- The Buffer invariant `0 ≤ cursor ≤ filled ≤ capacity`.  The fields
are `Nat`, so `0 ≤ cursor` is automatic. -/
def BufInv (b : Buffer) : Prop :=
  b.buf_ptr ≤ b.buf_size ∧ b.buf_size ≤ SOCKET_BUFFER_SIZE

instance : Inhabited Buffer :=
  ⟨Buffer.init fun _ => 0⟩

instance (b : Buffer) : Decidable (BufInv b) := by
  unfold BufInv
  infer_instance

/-- `struct NewConnQueueItem { int new_conn_fd; short event_flags; }`. -/
structure NewConnQueueItem where
  new_conn_fd : Int
  event_flags : Int
deriving DecidableEq, Repr

/-- `class LibeventThread`: thread id and (non-null) event base, the base
modelled as an opaque identifier.  The constructor that may refuse a
null base is `LibeventThread.construct` below. -/
structure LibeventThread where
  thread_id : Int
  libevent_base : Nat

/-- `LibeventThread::LibeventThread(thread_id, libevent_base)`: if the
base pointer is null (`none`) the constructor logs and calls `exit(1)`,
modelled as `Except.error 1` (the process exit code); otherwise it
stores the id and the base. -/
def LibeventThread.construct (thread_id : Int) (base : Option Nat) :
    Except Nat LibeventThread :=
  match base with
  | none => Except.error 1
  | some b => Except.ok ⟨thread_id, b⟩

/-- Per-fd kernel state touched by `SetNonBlocking` / `SetTCPNoDelay`:
the `fcntl` file-status flag bits and the `TCP_NODELAY` option. -/
structure FdState where
  statusFlags : Nat
  tcpNoDelay : Bool

/-- A libevent event as created by
`event_new(base, fd, flags, EventHandler, conn)`: the event base, the
watched fd and the event-flag mask. -/
structure LibEvent where
  baseId : Nat
  fd : Int
  flags : Int
deriving DecidableEq, Repr

/-- The ambient OS/libevent state the inline connection code acts on:
per-fd kernel state, the list of events created by `event_new` so far
(an event handle is an index into this list), and the handles passed to
`event_add`, in order. -/
structure World where
  fds : Int → FdState
  events : List LibEvent
  added : List Nat

/-- `SetNonBlocking(fd)`: `flags = fcntl(F_GETFL); flags |= O_NONBLOCK;
fcntl(F_SETFL, flags)`.  A failed `F_SETFL` only logs, so the embedding
takes the kernel update as performed. -/
def SetNonBlocking (w : World) (fd : Int) : World :=
  { w with fds := fun f =>
      if f = fd then
        { statusFlags := Nat.lor (w.fds f).statusFlags O_NONBLOCK,
          tcpNoDelay := (w.fds f).tcpNoDelay }
      else w.fds f }

/-- `SetTCPNoDelay(fd)`: `setsockopt(fd, IPPROTO_TCP, TCP_NODELAY, 1)`. -/
def SetTCPNoDelay (w : World) (fd : Int) : World :=
  { w with fds := fun f =>
      if f = fd then
        { statusFlags := (w.fds f).statusFlags, tcpNoDelay := true }
      else w.fds f }

/-- The protocol handler (`PacketManager`) is an external collaborator;
only its presence or absence matters here, so it is an opaque token. -/
structure PacketManager where
  sessionState : Nat

/-- `class LibeventSocket`: fd, disconnect flag, event handle
(`struct event *`, an index into `World.events`), event-flag mask, the
two buffers, the owning thread and the optionally-present protocol
handler (`std::unique_ptr<PacketManager>`, `none` when null). -/
structure LibeventSocket where
  sock_fd : Int
  is_disconnected : Bool
  event : Nat
  event_flags : Int
  rbuf : Buffer
  wbuf : Buffer
  thread : LibeventThread
  pkt_manager : Option PacketManager

/-- `LibeventSocket::Init(event_flags, thread)`:
`SetNonBlocking(sock_fd); SetTCPNoDelay(sock_fd);
is_disconnected = false; this->event_flags = event_flags;
this->thread = thread;
event = event_new(thread->GetEventBase(), sock_fd, event_flags, EventHandler, this);
event_add(event, nullptr);`. -/
def LibeventSocket.Init (s : LibeventSocket) (w : World)
    (event_flags : Int) (thread : LibeventThread) :
    LibeventSocket × World :=
  let w1 := SetTCPNoDelay (SetNonBlocking w s.sock_fd) s.sock_fd
  let handle := w1.events.length
  let w2 : World :=
    { w1 with
       events := w1.events ++ [⟨thread.libevent_base, s.sock_fd, event_flags⟩],
       added := w1.added ++ [handle] }
  ({ s with
      is_disconnected := false,
      event_flags := event_flags,
      thread := thread,
      event := handle }, w2)

/-- `LibeventSocket(sock_fd, event_flags, thread)` constructor: the
member-initializer list sets `sock_fd`, `event_flags` and `thread`;
`rbuf` and `wbuf` are default-constructed `Buffer`s (arbitrary contents
`rc`, `wc`), `pkt_manager` a null `unique_ptr`; then `Init` runs.  The
pre-`Init` values of `is_disconnected` and `event` are indeterminate
and immediately overwritten by `Init`. -/
def LibeventSocket.construct (w : World) (sock_fd : Int)
    (event_flags : Int) (thread : LibeventThread)
    (rc wc : Nat → Nat) : LibeventSocket × World :=
  LibeventSocket.Init
    ⟨sock_fd, false, 0, event_flags, Buffer.init rc, Buffer.init wc,
      thread, none⟩
    w event_flags thread

/-- `LibeventSocket::Reset(event_flags, thread)`:
`is_disconnected = false; rbuf.Reset(); wbuf.Reset();
pkt_manager.reset(nullptr); Init(event_flags, thread);`. -/
def LibeventSocket.Reset (s : LibeventSocket) (w : World)
    (event_flags : Int) (thread : LibeventThread) :
    LibeventSocket × World :=
  LibeventSocket.Init
    { s with
       is_disconnected := false,
       rbuf := s.rbuf.Reset,
       wbuf := s.wbuf.Reset,
       pkt_manager := none }
    w event_flags thread

/-- **C4.** For every Buffer in any state, `Buffer::Reset()` sets the
cursor (`buf_ptr`) and the filled length (`buf_size`) to zero and
leaves the byte contents of the underlying array unchanged (not
zeroed). -/
theorem buffer_reset_zeroes_counters_keeps_contents (b : Buffer) :
    b.Reset.buf_ptr = 0 ∧ b.Reset.buf_size = 0 ∧ b.Reset.buf = b.buf :=
  ⟨rfl, rfl, rfl⟩

/-- **C1.** The invariant `0 ≤ cursor ≤ filled ≤ capacity` (the fields
are unsigned, so `0 ≤ cursor` is automatic) holds for every Buffer
after construction and after every operation — `Reset`, *consume* and
*append* — and for both `rbuf` and `wbuf` of every connection after the
connection is constructed and after every `LibeventSocket::Reset`. -/
theorem buffer_invariant_preserved :
    (∀ c : Nat → Nat, BufInv (Buffer.init c)) ∧
    (∀ b : Buffer, BufInv b.Reset) ∧
    (∀ b b' : Buffer, ∀ n : Nat,
      BufInv b → b.consume n = some b' → BufInv b') ∧
    (∀ b b' : Buffer, ∀ src : List Nat,
      BufInv b → b.append src = some b' → BufInv b') ∧
    (∀ (w : World) (fd f : Int) (t : LibeventThread) (rc wc : Nat → Nat),
      BufInv (LibeventSocket.construct w fd f t rc wc).1.rbuf ∧
      BufInv (LibeventSocket.construct w fd f t rc wc).1.wbuf) ∧
    (∀ (s : LibeventSocket) (w : World) (f : Int) (t : LibeventThread),
      BufInv (LibeventSocket.Reset s w f t).1.rbuf ∧
      BufInv (LibeventSocket.Reset s w f t).1.wbuf) := by
  refine ⟨fun c => ⟨Nat.le_refl 0, Nat.zero_le _⟩,
          fun b => ⟨Nat.le_refl 0, Nat.zero_le _⟩, ?_, ?_, ?_, ?_⟩
  · intro b b' n hb h
    unfold Buffer.consume at h
    split at h
    · cases h
      exact ⟨by assumption, hb.2⟩
    · cases h
  · intro b b' src hb h
    unfold Buffer.append at h
    split at h
    · cases h
      exact ⟨Nat.le_trans hb.1 (Nat.le_add_right _ _), by assumption⟩
    · cases h
  · intro w fd f t rc wc
    exact ⟨⟨Nat.le_refl 0, Nat.zero_le _⟩, ⟨Nat.le_refl 0, Nat.zero_le _⟩⟩
  · intro s w f t
    exact ⟨⟨Nat.le_refl 0, Nat.zero_le _⟩, ⟨Nat.le_refl 0, Nat.zero_le _⟩⟩

/-- Witness for C1: the consume/append preservation clauses applied at a
concrete buffer, with the hypotheses discharged by evaluation. -/
theorem buffer_invariant_preserved_witness :
    BufInv ((Buffer.init fun _ => 0).consume 0).get! ∧
    BufInv ((Buffer.init fun _ => 0).append [7, 8]).get! := by
  constructor
  · exact buffer_invariant_preserved.2.2.1 (Buffer.init fun _ => 0) _ 0
      ⟨Nat.le_refl 0, Nat.zero_le _⟩ rfl
  · exact buffer_invariant_preserved.2.2.2.1 (Buffer.init fun _ => 0) _
      [7, 8] ⟨Nat.le_refl 0, Nat.zero_le _⟩ rfl

/-- **C2.** For every connection object and every (flags, thread) pair,
`LibeventSocket::Reset(flags, thread)` leaves both `rbuf` and `wbuf`
empty (cursor = filled = 0), leaves `pkt_manager` absent, leaves
`is_disconnected` false, and registers (creates via `event_new` and
passes to `event_add`) a reactor event for `sock_fd` with the given
thread's event base under the given flags. -/
theorem reset_reinitializes_connection (s : LibeventSocket) (w : World)
    (f : Int) (t : LibeventThread) :
    (LibeventSocket.Reset s w f t).1.rbuf.buf_ptr = 0 ∧
    (LibeventSocket.Reset s w f t).1.rbuf.buf_size = 0 ∧
    (LibeventSocket.Reset s w f t).1.wbuf.buf_ptr = 0 ∧
    (LibeventSocket.Reset s w f t).1.wbuf.buf_size = 0 ∧
    (LibeventSocket.Reset s w f t).1.pkt_manager = none ∧
    (LibeventSocket.Reset s w f t).1.is_disconnected = false ∧
    (LibeventSocket.Reset s w f t).2.events =
      w.events ++ [⟨t.libevent_base, s.sock_fd, f⟩] ∧
    (LibeventSocket.Reset s w f t).1.event = w.events.length ∧
    (LibeventSocket.Reset s w f t).2.added = w.added ++ [w.events.length] :=
  ⟨rfl, rfl, rfl, rfl, rfl, rfl, rfl, rfl, rfl⟩

/-- **C5.** `LibeventSocket::Reset(flags, thread)` leaves the `sock_fd`
field unchanged, and the one reactor event it installs is created for
that same fd: Reset never rebinds the connection to a different file
descriptor. -/
theorem reset_keeps_sock_fd (s : LibeventSocket) (w : World)
    (f : Int) (t : LibeventThread) :
    (LibeventSocket.Reset s w f t).1.sock_fd = s.sock_fd ∧
    List.drop w.events.length (LibeventSocket.Reset s w f t).2.events =
      [⟨t.libevent_base, s.sock_fd, f⟩] := by
  refine ⟨rfl, ?_⟩
  show List.drop w.events.length
      (w.events ++ [(⟨t.libevent_base, s.sock_fd, f⟩ : LibEvent)]) = _
  simp

/-- **C9.** Constructing a `LibeventThread` with a null event base
terminates the process with exit code 1 rather than returning a
partially constructed object; with a non-null base, construction
succeeds and stores the base (and the thread id). -/
theorem libevent_thread_ctor_exits_on_null_base (tid : Int) :
    LibeventThread.construct tid none = Except.error 1 ∧
    ∀ b : Nat, LibeventThread.construct tid (some b) =
      Except.ok ⟨tid, b⟩ :=
  ⟨rfl, fun _ => rfl⟩

/-- In the kernel state reached by `SetTCPNoDelay (SetNonBlocking w fd) fd`
(the first two statements of `Init`), fd's status flags contain
`O_NONBLOCK` and `TCP_NODELAY` is on. -/
theorem init_sets_socket_options (w : World) (fd : Int) :
    Nat.land ((SetTCPNoDelay (SetNonBlocking w fd) fd).fds fd).statusFlags
        O_NONBLOCK = O_NONBLOCK ∧
    ((SetTCPNoDelay (SetNonBlocking w fd) fd).fds fd).tcpNoDelay = true := by
  have h : ∀ x : Nat,
      (x ||| O_NONBLOCK) &&& O_NONBLOCK = O_NONBLOCK := by
    intro x
    apply Nat.eq_of_testBit_eq
    intro i
    simp only [Nat.testBit_land, Nat.testBit_lor]
    cases Nat.testBit x i <;> cases Nat.testBit O_NONBLOCK i <;> rfl
  constructor
  · simpa [SetTCPNoDelay, SetNonBlocking] using h (w.fds fd).statusFlags
  · simp [SetTCPNoDelay, SetNonBlocking]

/-- **C6.** After construction and after every `Reset`, the socket
descriptor `sock_fd` has `O_NONBLOCK` set in its file-status flags and
`TCP_NODELAY` enabled (`Init` calls `SetNonBlocking` then
`SetTCPNoDelay`, and the rest of `Init` leaves the per-fd kernel state
alone). -/
theorem connection_socket_options_set :
    (∀ (w : World) (fd f : Int) (t : LibeventThread) (rc wc : Nat → Nat),
      Nat.land
        (((LibeventSocket.construct w fd f t rc wc).2.fds fd).statusFlags)
        O_NONBLOCK = O_NONBLOCK ∧
      ((LibeventSocket.construct w fd f t rc wc).2.fds fd).tcpNoDelay
        = true) ∧
    (∀ (s : LibeventSocket) (w : World) (f : Int) (t : LibeventThread),
      Nat.land
        (((LibeventSocket.Reset s w f t).2.fds s.sock_fd).statusFlags)
        O_NONBLOCK = O_NONBLOCK ∧
      ((LibeventSocket.Reset s w f t).2.fds s.sock_fd).tcpNoDelay
        = true) := by
  constructor
  · intro w fd f t rc wc
    exact init_sets_socket_options w fd
  · intro s w f t
    exact init_sets_socket_options w s.sock_fd

/-- Outcome of one non-blocking I/O attempt, as classified by the spec's
error model: success, transient EAGAIN/EWOULDBLOCK, or a connection-
fatal condition (EOF, RST, EPIPE, any other hard error). -/
inductive IOOutcome where
  | success
  | wouldBlock
  | hardError
deriving DecidableEq, Repr

/-- The public operations of a live connection that can touch the
`is_disconnected` flag, each tagged with its I/O outcome where one
exists.  `reset` is `LibeventSocket::Reset`. -/
inductive ConnOp where
  | refillRead (r : IOOutcome)
  | readBytes (r : IOOutcome)
  | bufferWrite
  | flushWrite (r : IOOutcome)
  | closeSocket
  | reset
deriving DecidableEq, Repr

/-- Modelled from the spec: the effect of each connection operation on
`is_disconnected` (the out-of-line bodies of `RefillReadBuffer`,
`ReadBytes`, `FlushWriteBuffer` and `CloseSocket` are not in the
header).  Per the spec: `RefillReadBuffer` sets the flag on EOF, RST
or any error other than EAGAIN/EWOULDBLOCK and otherwise leaves it;
`ReadBytes` fails iff a refill fails; `FlushWriteBuffer` sets it on
hard error; `CloseSocket` sets it; `BufferWriteBytes` does not touch
it; `Reset` clears it (matching the inline `Reset`). -/
def discStep (d : Bool) : ConnOp → Bool
  | ConnOp.refillRead IOOutcome.hardError => true
  | ConnOp.refillRead _ => d
  | ConnOp.readBytes IOOutcome.hardError => true
  | ConnOp.readBytes _ => d
  | ConnOp.bufferWrite => d
  | ConnOp.flushWrite IOOutcome.hardError => true
  | ConnOp.flushWrite _ => d
  | ConnOp.closeSocket => true
  | ConnOp.reset => false

/-- The `is_disconnected` value after a sequence of operations starting
from flag value `d`. -/
def runDisc (d : Bool) : List ConnOp → Bool
  | [] => d
  | op :: ops => runDisc (discStep d op) ops

/-- **C3.** `is_disconnected` is a monotone latch: construction and
`Reset` start it at false; once true it remains true through any
sequence of non-`Reset` operations; and no single non-`Reset`
operation ever takes it from true back to false — so between two
`Reset`s it rises false→true at most once, and only construction and
`Reset` clear it. -/
theorem is_disconnected_latch :
    (∀ (w : World) (fd f : Int) (t : LibeventThread) (rc wc : Nat → Nat),
      (LibeventSocket.construct w fd f t rc wc).1.is_disconnected
        = false) ∧
    (∀ (s : LibeventSocket) (w : World) (f : Int) (t : LibeventThread),
      (LibeventSocket.Reset s w f t).1.is_disconnected = false) ∧
    (∀ ops : List ConnOp, (∀ op ∈ ops, op ≠ ConnOp.reset) →
      runDisc true ops = true) ∧
    (∀ (d : Bool) (op : ConnOp),
      discStep d op = false → d = false ∨ op = ConnOp.reset) := by
  refine ⟨fun _ _ _ _ _ _ => rfl, fun _ _ _ _ => rfl, ?_, ?_⟩
  · intro ops
    induction ops with
    | nil => intro _; rfl
    | cons op rest ih =>
      intro hno
      have hop : op ≠ ConnOp.reset := hno op (List.mem_cons_self op rest)
      have hstep : discStep true op = true := by
        cases op with
        | refillRead r => cases r <;> rfl
        | readBytes r => cases r <;> rfl
        | bufferWrite => rfl
        | flushWrite r => cases r <;> rfl
        | closeSocket => rfl
        | reset => exact absurd rfl hop
      show runDisc (discStep true op) rest = true
      rw [hstep]
      exact ih fun o ho => hno o (List.mem_cons_of_mem op ho)
  · intro d op hfalse
    cases op with
    | refillRead r =>
      cases r <;> simp [discStep] at hfalse <;> exact Or.inl hfalse
    | readBytes r =>
      cases r <;> simp [discStep] at hfalse <;> exact Or.inl hfalse
    | bufferWrite => exact Or.inl hfalse
    | flushWrite r =>
      cases r <;> simp [discStep] at hfalse <;> exact Or.inl hfalse
    | closeSocket => exact absurd hfalse (by simp [discStep])
    | reset => exact Or.inr rfl

/-- Witness for C3: the latch clauses applied at a concrete reset-free
trace (a hard read error then a successful flush) and at a concrete
single step. -/
theorem is_disconnected_latch_witness :
    runDisc true
      [ConnOp.refillRead IOOutcome.hardError,
       ConnOp.flushWrite IOOutcome.success] = true ∧
    (false = false ∨ ConnOp.bufferWrite = ConnOp.reset) := by
  constructor
  · exact is_disconnected_latch.2.2.1
      [ConnOp.refillRead IOOutcome.hardError,
       ConnOp.flushWrite IOOutcome.success] (by decide)
  · exact is_disconnected_latch.2.2.2 false ConnOp.bufferWrite rfl

/-- A 32-bit value serialized big-endian, most significant byte first. -/
def beU32 (n : Nat) : List Nat :=
  [n / 2 ^ 24 % 256, n / 2 ^ 16 % 256, n / 2 ^ 8 % 256, n % 256]

/-- The byte-level view of the write path: the filled region of `wbuf`
(as a byte list) together with the bytes already written to the
socket, in order. -/
structure WriteConn where
  wbufBytes : List Nat
  wire : List Nat
deriving DecidableEq, Repr

/-- Modelled from the spec: `LibeventSocket::FlushWriteBuffer` (its
out-of-line body is not in the header) "writes all buffered bytes to
the socket, looping over partial writes"; this is the completing run,
after which the buffer is empty. -/
def FlushWriteBuffer (c : WriteConn) : WriteConn :=
  { wbufBytes := [], wire := c.wire ++ c.wbufBytes }

/-- Modelled from the spec: `LibeventSocket::BufferWriteBytes(pkt_buf,
len, type)` (its out-of-line body is not in the header) "appends one
wire packet to `wbuf`: a one-byte type tag, a fixed-width big-endian
length field covering the length prefix plus payload, then the
payload.  If the packet does not fit in the remaining capacity, the
buffer is flushed first." -/
def BufferWriteBytes (c : WriteConn) (p : List Nat) (type : Nat) :
    WriteConn :=
  let pkt := type :: (beU32 (p.length + 4) ++ p)
  let c1 :=
    if c.wbufBytes.length + pkt.length ≤ SOCKET_BUFFER_SIZE then c
    else FlushWriteBuffer c
  { c1 with wbufBytes := c1.wbufBytes ++ pkt }

/-- **C7.** `BufferWriteBytes(p, len, type)` followed by a completing
`FlushWriteBuffer` puts on the wire exactly
`[type][len+4 as big-endian u32][p]`; in particular, for type `0x41`
and payload `"hello"` the wire bytes are
`41 00 00 00 09 68 65 6C 6C 6F`. -/
theorem buffer_write_then_flush_wire_format :
    (∀ (wire p : List Nat) (type : Nat),
      (FlushWriteBuffer (BufferWriteBytes ⟨[], wire⟩ p type)).wire =
        wire ++ type :: (beU32 (p.length + 4) ++ p)) ∧
    (FlushWriteBuffer
        (BufferWriteBytes ⟨[], []⟩
          [0x68, 0x65, 0x6C, 0x6C, 0x6F] 0x41)).wire =
      [0x41, 0x00, 0x00, 0x00, 0x09, 0x68, 0x65, 0x6C, 0x6C, 0x6F] := by
  constructor
  · intro wire p type
    simp only [BufferWriteBytes, FlushWriteBuffer]
    split <;> simp
  · rfl

/-- `(l.set i a).getD i d = a` when `i` is in bounds. -/
theorem getD_set_self {α : Type} (l : List α) (i : Nat) (a d : α)
    (h : i < l.length) : (l.set i a).getD i d = a := by
  induction l generalizing i with
  | nil => cases h
  | cons x xs ih =>
    cases i with
    | zero => rfl
    | succ n => exact ih n (Nat.lt_of_succ_lt_succ h)

/-- Setting slot `i` leaves slot `j ≠ i` unchanged. -/
theorem getD_set_other {α : Type} (l : List α) (i j : Nat) (a d : α)
    (hne : i ≠ j) : (l.set i a).getD j d = l.getD j d := by
  induction l generalizing i j with
  | nil => rfl
  | cons x xs ih =>
    cases i with
    | zero =>
      cases j with
      | zero => exact absurd rfl hne
      | succ m => rfl
    | succ n =>
      cases j with
      | zero => rfl
      | succ m => exact ih n m fun h2 => hne (congrArg Nat.succ h2)

/-- The master thread's dispatching state: the incrementing dispatch
counter and, for each worker thread in order, its `new_conn_queue`
contents (front of the list = first item pushed). -/
structure MasterState where
  counter : Nat
  queues : List (List NewConnQueueItem)
deriving DecidableEq, Repr

/-- Modelled from the spec:
`LibeventMasterThread::DispatchConnection(new_conn_fd, event_flags)`
(declared in the header, body out of line) "computes
`worker_index = counter++ % num_workers`, pushes `{fd, flags}` onto
that worker's queue, writes one byte to its wake-pipe". -/
def DispatchConnection (m : MasterState) (item : NewConnQueueItem) :
    MasterState :=
  let idx := m.counter % m.queues.length
  { counter := m.counter + 1,
    queues := m.queues.set idx (m.queues.getD idx [] ++ [item]) }

/-- Dispatch a whole accept batch, in accept order. -/
def dispatchAll (m : MasterState) : List NewConnQueueItem → MasterState
  | [] => m
  | c :: cs => dispatchAll (DispatchConnection m c) cs

/-- After dispatching batch `cs` from counter `c`, worker `w`'s queue has
gained exactly the items whose dispatch number `k` (numbering from `c`)
satisfies `k % n = w`, in batch order. -/
theorem dispatchAll_queue_getD (cs : List NewConnQueueItem) :
    ∀ (c : Nat) (qs : List (List NewConnQueueItem)) (w : Nat),
      w < qs.length →
      (dispatchAll ⟨c, qs⟩ cs).queues.getD w [] =
        qs.getD w [] ++
          ((List.enumFrom c cs).filter
            (fun p => p.1 % qs.length == w)).map Prod.snd := by
  induction cs with
  | nil =>
    intro c qs w hw
    simp [dispatchAll]
  | cons x xs ih =>
    intro c qs w hw
    have hpos : 0 < qs.length := Nat.lt_of_le_of_lt (Nat.zero_le w) hw
    have hidx : c % qs.length < qs.length := Nat.mod_lt c hpos
    have hq : DispatchConnection ⟨c, qs⟩ x =
        ⟨c + 1, qs.set (c % qs.length)
          (qs.getD (c % qs.length) [] ++ [x])⟩ := rfl
    have hlen : (qs.set (c % qs.length)
        (qs.getD (c % qs.length) [] ++ [x])).length = qs.length := by
      simp
    have hih := ih (c + 1)
      (qs.set (c % qs.length) (qs.getD (c % qs.length) [] ++ [x])) w
      (by simpa using hw)
    rw [hlen] at hih
    show (dispatchAll (DispatchConnection ⟨c, qs⟩ x) xs).queues.getD w []
      = _
    rw [hq, hih]
    by_cases hcw : c % qs.length = w
    · rw [hcw, getD_set_self _ _ _ _ (hcw ▸ hidx)]
      have hfil : (List.enumFrom c (x :: xs)).filter
          (fun p => p.1 % qs.length == w) =
          (c, x) :: (List.enumFrom (c + 1) xs).filter
            (fun p => p.1 % qs.length == w) := by
        simp [List.enumFrom, List.filter, hcw]
      rw [hfil]
      simp [hcw]
    · rw [getD_set_other _ _ _ _ _ hcw]
      have hbeq : (c % qs.length == w) = false := by
        simp [hcw]
      have hfil : (List.enumFrom c (x :: xs)).filter
          (fun p => p.1 % qs.length == w) =
          (List.enumFrom (c + 1) xs).filter
            (fun p => p.1 % qs.length == w) := by
        simp only [List.enumFrom, List.filter]
        rw [hbeq]
      rw [hfil]

/-- **C8.** Dispatching a batch from counter 0 over `n` fresh worker
queues sends the `k`-th accepted item (counting from 0) to worker
`k % n`, each worker receiving its items in accept order; with 2
workers and 4 consecutive connections the fds go to workers
`0, 1, 0, 1`. -/
theorem dispatch_connection_round_robin :
    (∀ (cs : List NewConnQueueItem) (n w : Nat), w < n →
      (dispatchAll ⟨0, List.replicate n []⟩ cs).queues.getD w [] =
        ((List.enumFrom 0 cs).filter
          (fun p => p.1 % n == w)).map Prod.snd) ∧
    (dispatchAll ⟨0, [[], []]⟩
        [⟨10, 2⟩, ⟨11, 2⟩, ⟨12, 2⟩, ⟨13, 2⟩]).queues =
      [[⟨10, 2⟩, ⟨12, 2⟩], [⟨11, 2⟩, ⟨13, 2⟩]] ∧
    (dispatchAll ⟨0, [[], []]⟩
        [⟨10, 2⟩, ⟨11, 2⟩, ⟨12, 2⟩, ⟨13, 2⟩]).counter = 4 := by
  refine ⟨?_, by decide, by decide⟩
  intro cs n w hw
  have h := dispatchAll_queue_getD cs 0 (List.replicate n []) w
    (by simpa using hw)
  simpa using h

/-- Witness for C8: the general clause applied with 3 workers and a
5-element batch, worker 1 receiving items 1 and 4. -/
theorem dispatch_connection_round_robin_witness :
    (dispatchAll ⟨0, List.replicate 3 []⟩
        [⟨20, 2⟩, ⟨21, 2⟩, ⟨22, 2⟩, ⟨23, 2⟩, ⟨24, 2⟩]).queues.getD 1 [] =
      ((List.enumFrom 0
          [(⟨20, 2⟩ : NewConnQueueItem), ⟨21, 2⟩, ⟨22, 2⟩, ⟨23, 2⟩,
            ⟨24, 2⟩]).filter
        (fun p => p.1 % 3 == 1)).map Prod.snd :=
  dispatch_connection_round_robin.1
    [⟨20, 2⟩, ⟨21, 2⟩, ⟨22, 2⟩, ⟨23, 2⟩, ⟨24, 2⟩] 3 1 (by decide)

/-- Iterate `LibeventSocket::Reset` over a list of (flags, thread)
arguments, threading the connection and the OS/libevent state. -/
def resetMany (sw : LibeventSocket × World) :
    List (Int × LibeventThread) → LibeventSocket × World
  | [] => sw
  | (f, t) :: ps => resetMany (LibeventSocket.Reset sw.1 sw.2 f t) ps

/-- Each run of `resetMany` keeps `sock_fd`, appends exactly one
`event_new` event per `Reset` (all watching that same fd) and one
`event_add` registration per `Reset`, removing nothing. -/
theorem resetMany_events (ps : List (Int × LibeventThread)) :
    ∀ (s : LibeventSocket) (w : World),
      (resetMany (s, w) ps).1.sock_fd = s.sock_fd ∧
      (∃ tail : List LibEvent,
        (resetMany (s, w) ps).2.events = w.events ++ tail ∧
        tail.length = ps.length ∧
        ∀ e ∈ tail, e.fd = s.sock_fd) ∧
      (∃ rest : List Nat,
        (resetMany (s, w) ps).2.added = w.added ++ rest ∧
        rest.length = ps.length) := by
  induction ps with
  | nil =>
    intro s w
    exact ⟨rfl, ⟨[], by simp [resetMany], rfl, by simp⟩,
      ⟨[], by simp [resetMany], rfl⟩⟩
  | cons p ps ih =>
    intro s w
    obtain ⟨f, t⟩ := p
    obtain ⟨hfd, ⟨tail, hev, hlen, hall⟩, ⟨rest, hadd, hrlen⟩⟩ :=
      ih (LibeventSocket.Reset s w f t).1 (LibeventSocket.Reset s w f t).2
    have hw'e : (LibeventSocket.Reset s w f t).2.events =
        w.events ++ [⟨t.libevent_base, s.sock_fd, f⟩] := rfl
    have hw'a : (LibeventSocket.Reset s w f t).2.added =
        w.added ++ [w.events.length] := rfl
    have hstep : resetMany (s, w) ((f, t) :: ps) =
        resetMany (LibeventSocket.Reset s w f t) ps := rfl
    rw [hstep]
    refine ⟨hfd, ⟨⟨t.libevent_base, s.sock_fd, f⟩ :: tail, ?_, ?_, ?_⟩,
      ⟨w.events.length :: rest, ?_, ?_⟩⟩
    · rw [hev, hw'e, List.append_assoc]
      rfl
    · simp [hlen]
    · intro e he
      rcases List.mem_cons.mp he with h1 | h2
      · rw [h1]
      · exact hall e h2
    · rw [hadd, hw'a, List.append_assoc]
      rfl
    · simp [hrlen]

/-- **C10.** Every `Init` (from the constructor or from `Reset`) creates
a fresh event via `event_new` for the connection's fd and overwrites
the `event` handle with it, never deleting or unregistering the
previous one: after construction and `n` `Reset`s, `n + 1` events have
been created for that fd, the registration list has only grown, and a
single `Reset` appends exactly one event and one registration while
overwriting the handle. -/
theorem init_accumulates_events :
    (∀ (w0 : World) (fd f : Int) (t : LibeventThread) (rc wc : Nat → Nat)
        (ps : List (Int × LibeventThread)),
      (resetMany (LibeventSocket.construct w0 fd f t rc wc) ps).2.events.length
          = w0.events.length + (1 + ps.length) ∧
      (∃ rest : List Nat,
        (resetMany (LibeventSocket.construct w0 fd f t rc wc) ps).2.added
            = w0.added ++ rest ∧
        rest.length = 1 + ps.length) ∧
      (List.drop w0.events.length
          (resetMany (LibeventSocket.construct w0 fd f t rc wc) ps).2.events).all
        (fun e => e.fd == fd) = true) ∧
    (∀ (s : LibeventSocket) (w : World) (f : Int) (t : LibeventThread),
      (LibeventSocket.Reset s w f t).1.event = w.events.length ∧
      (LibeventSocket.Reset s w f t).2.events.length
          = w.events.length + 1 ∧
      (LibeventSocket.Reset s w f t).2.added
          = w.added ++ [w.events.length]) := by
  constructor
  · intro w0 fd f t rc wc ps
    obtain ⟨hfd, ⟨tail, hev, hlen, hall⟩, ⟨rest, hadd, hrlen⟩⟩ :=
      resetMany_events ps (LibeventSocket.construct w0 fd f t rc wc).1
        (LibeventSocket.construct w0 fd f t rc wc).2
    have hce : (LibeventSocket.construct w0 fd f t rc wc).2.events =
        w0.events ++ [⟨t.libevent_base, fd, f⟩] := rfl
    have hca : (LibeventSocket.construct w0 fd f t rc wc).2.added =
        w0.added ++ [w0.events.length] := rfl
    have hevents :
        (resetMany (LibeventSocket.construct w0 fd f t rc wc) ps).2.events
          = w0.events ++ (⟨t.libevent_base, fd, f⟩ :: tail) := by
      rw [hev, hce, List.append_assoc]
      rfl
    refine ⟨?_, ⟨w0.events.length :: rest, ?_, ?_⟩, ?_⟩
    · rw [hevents]
      simp only [List.length_append, List.length_cons, hlen]
      omega
    · rw [hadd, hca, List.append_assoc]
      rfl
    · simp only [List.length_cons, hrlen]
      omega
    · rw [hevents, List.drop_left]
      simp only [List.all_eq_true]
      intro e he
      rcases List.mem_cons.mp he with h1 | h2
      · rw [h1]
        exact beq_self_eq_true fd
      · rw [hall e h2]
        exact beq_self_eq_true fd
  · intro s w f t
    refine ⟨rfl, ?_, rfl⟩
    show (w.events ++ [(⟨t.libevent_base, s.sock_fd, f⟩ : LibEvent)]).length
      = w.events.length + 1
    simp

end Peloton
